import Mathlib

set_option maxRecDepth 100000

/-!
Verification of the aa-stroke stroke-to-fill engine (src/main.rs).

The Rust source works over f32. This development embeds the code shallowly
over exact rational arithmetic: every f32 value becomes a rational number,
and the square-root function (used by hypot, by vector normalization and by
the arc approximation) is abstracted as an explicit parameter of every
definition that needs it, so that theorems quantify over it and concrete
witnesses instantiate it with an exact rational square root.

A second, separate model (namespace FModel) adjoins a NaN element to the
rationals with the IEEE-754 propagation rules for arithmetic and the
IEEE-754 comparison rules, in order to settle the claim about NaN stroke
widths. Infinities are not modeled there; no division by a (non-NaN) zero
occurs in the runs considered.
-/

namespace AAStroke

/-- Fill rule of a path, from enum Winding in the source. -/
inductive Winding where
  | evenOdd : Winding
  | nonZero : Winding
deriving DecidableEq, Repr

/-- A 2D point (euclid Point2D of f32 in the source), over exact rationals. -/
structure Point where
  x : ℚ
  y : ℚ
deriving DecidableEq, Repr

/-- A 2D vector (euclid Vector2D of f32 in the source), over exact rationals. -/
structure Vector where
  x : ℚ
  y : ℚ
deriving DecidableEq, Repr

/-- Componentwise vector addition. -/
def vadd (a b : Vector) : Vector := ⟨a.x + b.x, a.y + b.y⟩

/-- Scaling of a vector by a scalar. -/
def vscale (v : Vector) (k : ℚ) : Vector := ⟨v.x * k, v.y * k⟩

/-- Division of a vector by a scalar. -/
def vdiv (v : Vector) (k : ℚ) : Vector := ⟨v.x / k, v.y / k⟩

/-- Translation of a point by a vector. -/
def paddv (p : Point) (v : Vector) : Point := ⟨p.x + v.x, p.y + v.y⟩

/-- Translation of a point by the opposite of a vector. -/
def psubv (p : Point) (v : Vector) : Point := ⟨p.x - v.x, p.y - v.y⟩

/-- Difference of two points, as a vector. -/
def psub (a b : Point) : Vector := ⟨a.x - b.x, a.y - b.y⟩

/-- Path command, from enum PathOp in the source. -/
inductive PathOp where
  | moveTo (p : Point) : PathOp
  | lineTo (p : Point) : PathOp
  | quadTo (c p : Point) : PathOp
  | cubicTo (c1 c2 p : Point) : PathOp
  | close : PathOp
deriving DecidableEq, Repr

/-- True on the curved commands, which the stroker rejects. -/
def PathOp.isCurved : PathOp → Bool
  | .quadTo _ _ => true
  | .cubicTo _ _ _ => true
  | _ => false

/-- A complete path: command sequence plus fill rule (struct Path). -/
structure Path where
  ops : List PathOp
  winding : Winding
deriving DecidableEq, Repr

/-- Cap style, from enum LineCap. -/
inductive LineCap where
  | round : LineCap
  | square : LineCap
  | butt : LineCap
deriving DecidableEq, Repr

/-- Join style, from enum LineJoin. -/
inductive LineJoin where
  | round : LineJoin
  | miter : LineJoin
  | bevel : LineJoin
deriving DecidableEq, Repr

/-- Stroke configuration, from struct StrokeStyle. -/
structure StrokeStyle where
  width : ℚ
  cap : LineCap
  join : LineJoin
  miterLimit : ℚ
  dashArray : List ℚ
  dashOffset : ℚ
deriving DecidableEq, Repr

/-- Default stroke style (impl Default for StrokeStyle). -/
def StrokeStyle.default : StrokeStyle :=
  { width := 1, cap := .butt, join := .miter, miterLimit := 10,
    dashArray := [], dashOffset := 0 }

/-- Mutable accumulator for a path under construction (struct PathBuilder). -/
structure PathBuilder where
  path : Path
deriving DecidableEq, Repr

/-- PathBuilder::new, starting from an empty NonZero path. -/
def PathBuilder.new : PathBuilder := ⟨⟨[], .nonZero⟩⟩

/-- PathBuilder::move_to. -/
def PathBuilder.moveTo (b : PathBuilder) (x y : ℚ) : PathBuilder :=
  ⟨⟨b.path.ops ++ [.moveTo ⟨x, y⟩], b.path.winding⟩⟩

/-- PathBuilder::line_to. -/
def PathBuilder.lineTo (b : PathBuilder) (x y : ℚ) : PathBuilder :=
  ⟨⟨b.path.ops ++ [.lineTo ⟨x, y⟩], b.path.winding⟩⟩

/-- PathBuilder::quad_to. -/
def PathBuilder.quadTo (b : PathBuilder) (cx cy x y : ℚ) : PathBuilder :=
  ⟨⟨b.path.ops ++ [.quadTo ⟨cx, cy⟩ ⟨x, y⟩], b.path.winding⟩⟩

/-- PathBuilder::cubic_to. -/
def PathBuilder.cubicTo (b : PathBuilder) (cx1 cy1 cx2 cy2 x y : ℚ) : PathBuilder :=
  ⟨⟨b.path.ops ++ [.cubicTo ⟨cx1, cy1⟩ ⟨cx2, cy2⟩ ⟨x, y⟩], b.path.winding⟩⟩

/-- PathBuilder::close. -/
def PathBuilder.close (b : PathBuilder) : PathBuilder :=
  ⟨⟨b.path.ops ++ [.close], b.path.winding⟩⟩

/-- PathBuilder::quad — a closed four-point polygon. -/
def PathBuilder.quad (b : PathBuilder) (x1 y1 x2 y2 x3 y3 x4 y4 : ℚ) : PathBuilder :=
  ((((b.moveTo x1 y1).lineTo x2 y2).lineTo x3 y3).lineTo x4 y4).close

/-- PathBuilder::tri — a closed triangle. -/
def PathBuilder.tri (b : PathBuilder) (x1 y1 x2 y2 x3 y3 : ℚ) : PathBuilder :=
  (((b.moveTo x1 y1).lineTo x2 y2).lineTo x3 y3).close

/-- PathBuilder::rect. -/
def PathBuilder.rect (b : PathBuilder) (x y width height : ℚ) : PathBuilder :=
  ((((b.moveTo x y).lineTo (x + width) y).lineTo (x + width) (y + height)).lineTo
    x (y + height)).close

/-- PathBuilder::finish, yielding the built path. -/
def PathBuilder.finish (b : PathBuilder) : Path := b.path

/-- compute_normal: the unit normal of the segment p0 → p1, rotated left,
or none when the segment has zero length. The f32 hypot of the source is
modeled as the abstract square root of the exact sum of squares. -/
def computeNormal (sqrt : ℚ → ℚ) (p0 p1 : Point) : Option Vector :=
  let ux := p1.x - p0.x
  let uy := p1.y - p0.y
  let ulen := sqrt (ux * ux + uy * uy)
  if ulen = 0 then none
  else some ⟨-uy / ulen, ux / ulen⟩

/-- flip: the opposite vector. -/
def flip (v : Vector) : Vector := ⟨-v.x, -v.y⟩

/-- perp: rotation of a vector 90 degrees to the left. -/
def perp (v : Vector) : Vector := ⟨-v.y, v.x⟩

/-- swap: rotation of a vector 90 degrees to the right. -/
def swap (a : Vector) : Vector := ⟨a.y, -a.x⟩

/-- unperp, defined as swap in the source. -/
def unperp (a : Vector) : Vector := swap a

/-- dot product of two vectors. -/
def dot (a b : Vector) : ℚ := a.x * b.x + a.y * b.y

/-- bisect: unit bisector of two unit vectors spanning an angle of at most pi,
with the numerically split obtuse branch of the source. -/
def bisect (sqrt : ℚ → ℚ) (a b : Vector) : Vector :=
  let mid := if 0 ≤ dot a b then vadd a b else perp (vadd (flip a) b)
  let midLen := mid.x * mid.x + mid.y * mid.y
  let len := sqrt midLen
  vdiv mid len

/-- arc_segment: one cubic segment approximating the arc from angle vector a
to angle vector b around (xc, yc). -/
def arcSegment (sqrt : ℚ → ℚ) (path : PathBuilder) (xc yc radius : ℚ)
    (a b : Vector) : PathBuilder :=
  let rSinA := radius * a.y
  let rCosA := radius * a.x
  let rSinB := radius * b.y
  let rCosB := radius * b.x
  let mid0 := vadd a b
  let mid := vdiv mid0 (sqrt (mid0.x * mid0.x + mid0.y * mid0.y))
  let mid2 := vadd a mid
  let h := 4 / 3 * dot (perp a) mid2 / dot a mid2
  path.cubicTo (xc + rCosA - h * rSinA) (yc + rSinA + h * rCosA)
    (xc + rCosB + h * rSinB) (yc + rSinB - h * rCosB)
    (xc + rCosB) (yc + rSinB)

/-- arc: the arc from a to b approximated by two cubic segments split at
the bisector. -/
def arc (sqrt : ℚ → ℚ) (path : PathBuilder) (xc yc radius : ℚ)
    (a b : Vector) : PathBuilder :=
  let midV := bisect sqrt a b
  arcSegment sqrt (arcSegment sqrt path xc yc radius a midV) xc yc radius midV b

/-- PathBuilder::arc_wedge — pie slice from the center to the arc and back. -/
def PathBuilder.arcWedge (b : PathBuilder) (sqrt : ℚ → ℚ) (c : Point)
    (radius : ℚ) (va vb : Vector) : PathBuilder :=
  ((arc sqrt (b.moveTo (c.x + va.x * radius) (c.y + va.y * radius))
      c.x c.y radius va vb).lineTo c.x c.y).close

/-- join_round: round join geometry, delegating to the arc approximation. -/
def joinRound (sqrt : ℚ → ℚ) (path : PathBuilder) (center : Point)
    (a b : Vector) (radius : ℚ) : PathBuilder :=
  arc sqrt path center.x center.y radius a b

/-- cap_line: end-of-subpath cap geometry at pt with the given normal. -/
def capLine (sqrt : ℚ → ℚ) (dest : PathBuilder) (style : StrokeStyle)
    (pt : Point) (nrm : Vector) : PathBuilder :=
  let offset := style.width / 2
  match style.cap with
  | .butt => dest
  | .round => dest.arcWedge sqrt pt offset nrm (flip nrm)
  | .square =>
      let v : Vector := ⟨nrm.y, -nrm.x⟩
      let endPt : Point := paddv pt (vscale v offset)
      dest.quad (pt.x + nrm.x * offset) (pt.y + nrm.y * offset)
        (endPt.x + nrm.x * offset) (endPt.y + nrm.y * offset)
        (endPt.x + -nrm.x * offset) (endPt.y + -nrm.y * offset)
        (pt.x - nrm.x * offset) (pt.y - nrm.y * offset)

/-- bevel: the bevel join triangle between the two offset points and the
vertex. -/
def bevel (dest : PathBuilder) (style : StrokeStyle) (pt : Point)
    (s1 s2 : Vector) : PathBuilder :=
  let offset := style.width / 2
  dest.tri (pt.x + s1.x * offset) (pt.y + s1.y * offset)
    (pt.x + s2.x * offset) (pt.y + s2.y * offset) pt.x pt.y

/-- line_intersection via the perpendicular dot product, none when the lines
are parallel. -/
def lineIntersection (a : Point) (aPerp : Vector) (b : Point)
    (bPerp : Vector) : Option Point :=
  let aParallel := unperp aPerp
  let c := psub b a
  let denom := dot bPerp aParallel
  if denom = 0 then none
  else
    let t := dot bPerp c / denom
    some ⟨a.x + t * aParallel.x, a.y + t * aParallel.y⟩

/-- is_interior_angle: a zero-degree turn counts as interior. -/
def isInteriorAngle (a b : Vector) : Bool :=
  decide (0 < dot (perp a) b) || decide (a = b)

/-- Body of join_line after the interior-angle adjustment of the two
normals. -/
def joinLineInner (sqrt : ℚ → ℚ) (dest : PathBuilder) (style : StrokeStyle)
    (pt : Point) (s1 s2 : Vector) : PathBuilder :=
  let offset := style.width / 2
  match style.join with
  | .round => dest.arcWedge sqrt pt offset s1 s2
  | .miter =>
      let inDotOut := -s1.x * s2.x + -s1.y * s2.y
      if 2 ≤ style.miterLimit * style.miterLimit * (1 - inDotOut) then
        let start := paddv pt (vscale s1 offset)
        let endPt := paddv pt (vscale s2 offset)
        match lineIntersection start s1 endPt s2 with
        | some inter =>
            dest.quad (pt.x + s1.x * offset) (pt.y + s1.y * offset)
              inter.x inter.y
              (pt.x + s2.x * offset) (pt.y + s2.y * offset) pt.x pt.y
        | none => dest
      else bevel dest style pt s1 s2
  | .bevel => bevel dest style pt s1 s2

/-- join_line: if the turn is interior, flip both normals and exchange them,
then build the join geometry. -/
def joinLine (sqrt : ℚ → ℚ) (dest : PathBuilder) (style : StrokeStyle)
    (pt : Point) (s1 s2 : Vector) : PathBuilder :=
  if isInteriorAngle s1 s2 then
    joinLineInner sqrt dest style pt (flip s2) (flip s1)
  else joinLineInner sqrt dest style pt s1 s2

/-- The running state of the stroker loop in stroke_to_path: output builder,
current point, normal of the last emitted segment, and first point and
normal of the current open subpath. -/
structure StrokerState where
  builder : PathBuilder
  curPt : Option Point
  lastNormal : Vector
  startPoint : Option (Point × Vector)
deriving DecidableEq, Repr

/-- One iteration of the stroke_to_path loop; the curved commands are the
panic of the source, modeled as an error. -/
def strokeStep (sqrt : ℚ → ℚ) (style : StrokeStyle) (st : StrokerState)
    (op : PathOp) : Except String StrokerState :=
  match op with
  | .moveTo pt =>
      match st.curPt, st.startPoint with
      | some cp, some (point, nrm) =>
          .ok ⟨capLine sqrt (capLine sqrt st.builder style cp st.lastNormal)
                style point (flip nrm), some pt, st.lastNormal, none⟩
      | _, _ => .ok ⟨st.builder, some pt, st.lastNormal, none⟩
  | .lineTo pt =>
      match st.curPt with
      | none => .ok ⟨st.builder, some pt, st.lastNormal, none⟩
      | some cp =>
          match computeNormal sqrt cp pt with
          | none => .ok ⟨st.builder, some pt, st.lastNormal, st.startPoint⟩
          | some nrm =>
              let halfWidth := style.width / 2
              let b1 :=
                match st.startPoint with
                | none => st.builder
                | some _ => joinLine sqrt st.builder style cp st.lastNormal nrm
              let sp :=
                match st.startPoint with
                | none => some (cp, nrm)
                | some sp0 => some sp0
              let b2 := b1.quad (cp.x + nrm.x * halfWidth)
                (cp.y + nrm.y * halfWidth)
                (pt.x + nrm.x * halfWidth) (pt.y + nrm.y * halfWidth)
                (pt.x + -nrm.x * halfWidth) (pt.y + -nrm.y * halfWidth)
                (cp.x - nrm.x * halfWidth) (cp.y - nrm.y * halfWidth)
              .ok ⟨b2, some pt, nrm, sp⟩
  | .close =>
      match st.curPt, st.startPoint with
      | some cp, some (endPoint, startNormal) =>
          let b :=
            match computeNormal sqrt cp endPoint with
            | some nrm =>
                let halfWidth := style.width / 2
                let b1 := joinLine sqrt st.builder style cp st.lastNormal nrm
                let b2 := b1.quad (cp.x + nrm.x * halfWidth)
                  (cp.y + nrm.y * halfWidth)
                  (endPoint.x + nrm.x * halfWidth)
                  (endPoint.y + nrm.y * halfWidth)
                  (endPoint.x + -nrm.x * halfWidth)
                  (endPoint.y + -nrm.y * halfWidth)
                  (cp.x - nrm.x * halfWidth) (cp.y - nrm.y * halfWidth)
                joinLine sqrt b2 style endPoint nrm startNormal
            | none =>
                joinLine sqrt st.builder style endPoint st.lastNormal
                  startNormal
          .ok ⟨b, st.startPoint.map Prod.fst, st.lastNormal, none⟩
      | _, _ =>
          .ok ⟨st.builder, st.startPoint.map Prod.fst, st.lastNormal, none⟩
  | .quadTo _ _ => .error "Only flat paths handled"
  | .cubicTo _ _ _ => .error "Only flat paths handled"

/-- The stroke_to_path loop over the command list. -/
def runOps (sqrt : ℚ → ℚ) (style : StrokeStyle) :
    StrokerState → List PathOp → Except String StrokerState
  | st, [] => .ok st
  | st, op :: rest =>
      match strokeStep sqrt style st op with
      | .error e => .error e
      | .ok st2 => runOps sqrt style st2 rest

/-- stroke_to_path: width guard, loop, and the final caps of a still-open
subpath. -/
def strokeToPath (sqrt : ℚ → ℚ) (path : Path) (style : StrokeStyle) :
    Except String Path :=
  let strokedPath := PathBuilder.new
  if style.width ≤ 0 then .ok strokedPath.finish
  else
    match runOps sqrt style ⟨strokedPath, none, ⟨0, 0⟩, none⟩ path.ops with
    | .error e => .error e
    | .ok st =>
        match st.curPt, st.startPoint with
        | some cp, some (point, nrm) =>
            .ok ((capLine sqrt (capLine sqrt st.builder style cp st.lastNormal)
              style point (flip nrm)).finish)
        | _, _ => .ok st.builder.finish

/-- Fuel-driven integer square-root search used by the concrete witness
square root. -/
def sqrtGo (n : Nat) : Nat → Nat → Nat
  | 0, k => k
  | f + 1, k => if (k + 1) * (k + 1) ≤ n then sqrtGo n f (k + 1) else k

/-- Integer square root (rounded down), by bounded search. -/
def natSqrt (n : Nat) : Nat := sqrtGo n n 0

/-- A concrete square root on the rationals used to instantiate the abstract
square-root parameter in witnesses: exact on perfect squares of rationals,
zero on nonpositive inputs, and some arbitrary nonzero value elsewhere.
Every square root taken in the concrete runs below is a perfect square, so
there ratSqrt agrees with the real square root. -/
def ratSqrt (q : ℚ) : ℚ :=
  if q ≤ 0 then 0
  else
    let n := natSqrt q.num.natAbs
    let d := natSqrt q.den
    if n * n = q.num.natAbs ∧ d * d = q.den then (n : ℚ) / (d : ℚ) else q

/-- A style with nonpositive width, for the short-circuit witness. -/
def negStyle : StrokeStyle := ⟨-1, .butt, .miter, 10, [], 0⟩

/-- A non-empty path containing a curved command, for witnesses. -/
def curvyPath : Path :=
  ⟨[.moveTo ⟨0, 0⟩, .quadTo ⟨1, 1⟩ ⟨2, 0⟩, .lineTo ⟨3, 3⟩, .close], .evenOdd⟩

/-- A flat-prefix path ending in a cubic command, for witnesses. -/
def cubicPath : Path :=
  ⟨[.moveTo ⟨0, 0⟩, .cubicTo ⟨0, 1⟩ ⟨1, 1⟩ ⟨1, 0⟩], .nonZero⟩

/-- The first coordinate pair appearing in an emitted command list. -/
def firstEmittedPoint : List PathOp → Option Point
  | [] => none
  | .moveTo p :: _ => some p
  | .lineTo p :: _ => some p
  | .quadTo c _ :: _ => some c
  | .cubicTo c1 _ _ :: _ => some c1
  | .close :: _ => none

namespace FModel

/-!
A model of f32 restricted to exactly representable rational values together
with NaN, with the IEEE-754 propagation rules: any arithmetic operation with
a NaN operand yields NaN, and every ordered comparison or equality test with
a NaN operand is false. Infinities are not modeled; division by a non-NaN
zero yields NaN here, a case no run below exercises. The stroking code is
embedded a second time over this carrier, line for line the same as the
rational embedding above, to settle how stroke_to_path treats a NaN width.
-/

/-- A float: a rational value or NaN. -/
inductive F where
  | nan : F
  | num (q : ℚ) : F
deriving DecidableEq, Repr

/-- Addition with NaN propagation. -/
def F.add : F → F → F
  | .num a, .num b => .num (a + b)
  | _, _ => .nan

/-- Multiplication with NaN propagation. -/
def F.mul : F → F → F
  | .num a, .num b => .num (a * b)
  | _, _ => .nan

/-- Subtraction with NaN propagation. -/
def F.sub : F → F → F
  | .num a, .num b => .num (a - b)
  | _, _ => .nan

/-- Negation with NaN propagation. -/
def F.neg : F → F
  | .num a => .num (-a)
  | .nan => .nan

/-- Division with NaN propagation (infinities unmodeled: division by a
non-NaN zero yields NaN, a case not exercised in the runs considered). -/
def F.div : F → F → F
  | .num a, .num b => if b = 0 then .nan else .num (a / b)
  | _, _ => .nan

/-- IEEE-style less-or-equal: false whenever an operand is NaN. -/
def F.le : F → F → Bool
  | .num a, .num b => decide (a ≤ b)
  | _, _ => false

/-- IEEE-style strict less-than: false whenever an operand is NaN. -/
def F.lt : F → F → Bool
  | .num a, .num b => decide (a < b)
  | _, _ => false

/-- IEEE-style equality test: false whenever an operand is NaN. -/
def F.beq : F → F → Bool
  | .num a, .num b => decide (a = b)
  | _, _ => false

instance : Add F := ⟨F.add⟩
instance : Mul F := ⟨F.mul⟩
instance : Sub F := ⟨F.sub⟩
instance : Neg F := ⟨F.neg⟩
instance : Div F := ⟨F.div⟩
instance (n : Nat) : OfNat F n := ⟨F.num n⟩

/-- A 2D point over the NaN-aware carrier. -/
structure FPoint where
  x : F
  y : F
deriving DecidableEq, Repr

/-- A 2D vector over the NaN-aware carrier. -/
structure FVec where
  x : F
  y : F
deriving DecidableEq, Repr

/-- Path command over the NaN-aware carrier. -/
inductive FPathOp where
  | moveTo (p : FPoint) : FPathOp
  | lineTo (p : FPoint) : FPathOp
  | quadTo (c p : FPoint) : FPathOp
  | cubicTo (c1 c2 p : FPoint) : FPathOp
  | close : FPathOp
deriving DecidableEq, Repr

/-- A path over the NaN-aware carrier. -/
structure FPath where
  ops : List FPathOp
  winding : Winding
deriving DecidableEq, Repr

/-- Stroke configuration over the NaN-aware carrier. -/
structure FStrokeStyle where
  width : F
  cap : LineCap
  join : LineJoin
  miterLimit : F
  dashArray : List F
  dashOffset : F
deriving DecidableEq, Repr

/-- Builder over the NaN-aware carrier. -/
structure FPathBuilder where
  path : FPath
deriving DecidableEq, Repr

/-- PathBuilder::new over the NaN-aware carrier. -/
def FPathBuilder.new : FPathBuilder := ⟨⟨[], .nonZero⟩⟩

/-- PathBuilder::move_to over the NaN-aware carrier. -/
def FPathBuilder.moveTo (b : FPathBuilder) (x y : F) : FPathBuilder :=
  ⟨⟨b.path.ops ++ [.moveTo ⟨x, y⟩], b.path.winding⟩⟩

/-- PathBuilder::line_to over the NaN-aware carrier. -/
def FPathBuilder.lineTo (b : FPathBuilder) (x y : F) : FPathBuilder :=
  ⟨⟨b.path.ops ++ [.lineTo ⟨x, y⟩], b.path.winding⟩⟩

/-- PathBuilder::cubic_to over the NaN-aware carrier. -/
def FPathBuilder.cubicTo (b : FPathBuilder) (cx1 cy1 cx2 cy2 x y : F) :
    FPathBuilder :=
  ⟨⟨b.path.ops ++ [.cubicTo ⟨cx1, cy1⟩ ⟨cx2, cy2⟩ ⟨x, y⟩], b.path.winding⟩⟩

/-- PathBuilder::close over the NaN-aware carrier. -/
def FPathBuilder.close (b : FPathBuilder) : FPathBuilder :=
  ⟨⟨b.path.ops ++ [.close], b.path.winding⟩⟩

/-- PathBuilder::quad over the NaN-aware carrier. -/
def FPathBuilder.quad (b : FPathBuilder) (x1 y1 x2 y2 x3 y3 x4 y4 : F) :
    FPathBuilder :=
  ((((b.moveTo x1 y1).lineTo x2 y2).lineTo x3 y3).lineTo x4 y4).close

/-- PathBuilder::tri over the NaN-aware carrier. -/
def FPathBuilder.tri (b : FPathBuilder) (x1 y1 x2 y2 x3 y3 : F) :
    FPathBuilder :=
  (((b.moveTo x1 y1).lineTo x2 y2).lineTo x3 y3).close

/-- PathBuilder::finish over the NaN-aware carrier. -/
def FPathBuilder.finish (b : FPathBuilder) : FPath := b.path

/-- flip over the NaN-aware carrier. -/
def flipF (v : FVec) : FVec := ⟨-v.x, -v.y⟩

/-- perp over the NaN-aware carrier. -/
def perpF (v : FVec) : FVec := ⟨-v.y, v.x⟩

/-- swap over the NaN-aware carrier. -/
def swapF (a : FVec) : FVec := ⟨a.y, -a.x⟩

/-- unperp over the NaN-aware carrier. -/
def unperpF (a : FVec) : FVec := swapF a

/-- dot product over the NaN-aware carrier. -/
def dotF (a b : FVec) : F := a.x * b.x + a.y * b.y

/-- compute_normal over the NaN-aware carrier; the comparison with zero
follows the IEEE rule, so a NaN length is not treated as zero. -/
def computeNormalF (sqrtF : F → F) (p0 p1 : FPoint) : Option FVec :=
  let ux := p1.x - p0.x
  let uy := p1.y - p0.y
  let ulen := sqrtF (ux * ux + uy * uy)
  if F.beq ulen 0 then none
  else some ⟨(-uy) / ulen, ux / ulen⟩

/-- bisect over the NaN-aware carrier. -/
def bisectF (sqrtF : F → F) (a b : FVec) : FVec :=
  let mid := if F.le 0 (dotF a b) then (⟨a.x + b.x, a.y + b.y⟩ : FVec)
    else perpF ⟨(flipF a).x + b.x, (flipF a).y + b.y⟩
  let midLen := mid.x * mid.x + mid.y * mid.y
  let len := sqrtF midLen
  ⟨mid.x / len, mid.y / len⟩

/-- arc_segment over the NaN-aware carrier. -/
def arcSegmentF (sqrtF : F → F) (path : FPathBuilder) (xc yc radius : F)
    (a b : FVec) : FPathBuilder :=
  let rSinA := radius * a.y
  let rCosA := radius * a.x
  let rSinB := radius * b.y
  let rCosB := radius * b.x
  let m0 : FVec := ⟨a.x + b.x, a.y + b.y⟩
  let len := sqrtF (m0.x * m0.x + m0.y * m0.y)
  let mid : FVec := ⟨m0.x / len, m0.y / len⟩
  let mid2 : FVec := ⟨a.x + mid.x, a.y + mid.y⟩
  let h := 4 / 3 * dotF (perpF a) mid2 / dotF a mid2
  path.cubicTo (xc + rCosA - h * rSinA) (yc + rSinA + h * rCosA)
    (xc + rCosB + h * rSinB) (yc + rSinB - h * rCosB)
    (xc + rCosB) (yc + rSinB)

/-- arc over the NaN-aware carrier. -/
def arcF (sqrtF : F → F) (path : FPathBuilder) (xc yc radius : F)
    (a b : FVec) : FPathBuilder :=
  let midV := bisectF sqrtF a b
  arcSegmentF sqrtF (arcSegmentF sqrtF path xc yc radius a midV)
    xc yc radius midV b

/-- PathBuilder::arc_wedge over the NaN-aware carrier. -/
def FPathBuilder.arcWedge (b : FPathBuilder) (sqrtF : F → F) (c : FPoint)
    (radius : F) (va vb : FVec) : FPathBuilder :=
  ((arcF sqrtF (b.moveTo (c.x + va.x * radius) (c.y + va.y * radius))
      c.x c.y radius va vb).lineTo c.x c.y).close

/-- cap_line over the NaN-aware carrier. -/
def capLineF (sqrtF : F → F) (dest : FPathBuilder) (style : FStrokeStyle)
    (pt : FPoint) (nrm : FVec) : FPathBuilder :=
  let offset := style.width / 2
  match style.cap with
  | .butt => dest
  | .round => dest.arcWedge sqrtF pt offset nrm (flipF nrm)
  | .square =>
      let v : FVec := ⟨nrm.y, -nrm.x⟩
      let endPt : FPoint := ⟨pt.x + v.x * offset, pt.y + v.y * offset⟩
      dest.quad (pt.x + nrm.x * offset) (pt.y + nrm.y * offset)
        (endPt.x + nrm.x * offset) (endPt.y + nrm.y * offset)
        (endPt.x + -nrm.x * offset) (endPt.y + -nrm.y * offset)
        (pt.x - nrm.x * offset) (pt.y - nrm.y * offset)

/-- bevel over the NaN-aware carrier. -/
def bevelF (dest : FPathBuilder) (style : FStrokeStyle) (pt : FPoint)
    (s1 s2 : FVec) : FPathBuilder :=
  let offset := style.width / 2
  dest.tri (pt.x + s1.x * offset) (pt.y + s1.y * offset)
    (pt.x + s2.x * offset) (pt.y + s2.y * offset) pt.x pt.y

/-- line_intersection over the NaN-aware carrier. -/
def lineIntersectionF (a : FPoint) (aPerp : FVec) (b : FPoint)
    (bPerp : FVec) : Option FPoint :=
  let aParallel := unperpF aPerp
  let c : FVec := ⟨b.x - a.x, b.y - a.y⟩
  let denom := dotF bPerp aParallel
  if F.beq denom 0 then none
  else
    let t := dotF bPerp c / denom
    some ⟨a.x + t * aParallel.x, a.y + t * aParallel.y⟩

/-- is_interior_angle over the NaN-aware carrier; the equality test of the
two vectors is the componentwise IEEE equality. -/
def isInteriorAngleF (a b : FVec) : Bool :=
  F.lt 0 (dotF (perpF a) b) || (F.beq a.x b.x && F.beq a.y b.y)

/-- Body of join_line after the normal adjustment, NaN-aware carrier. -/
def joinLineInnerF (sqrtF : F → F) (dest : FPathBuilder)
    (style : FStrokeStyle) (pt : FPoint) (s1 s2 : FVec) : FPathBuilder :=
  let offset := style.width / 2
  match style.join with
  | .round => dest.arcWedge sqrtF pt offset s1 s2
  | .miter =>
      let inDotOut := -s1.x * s2.x + -s1.y * s2.y
      if F.le 2 (style.miterLimit * style.miterLimit * (1 - inDotOut)) then
        let start : FPoint := ⟨pt.x + s1.x * offset, pt.y + s1.y * offset⟩
        let endPt : FPoint := ⟨pt.x + s2.x * offset, pt.y + s2.y * offset⟩
        match lineIntersectionF start s1 endPt s2 with
        | some inter =>
            dest.quad (pt.x + s1.x * offset) (pt.y + s1.y * offset)
              inter.x inter.y
              (pt.x + s2.x * offset) (pt.y + s2.y * offset) pt.x pt.y
        | none => dest
      else bevelF dest style pt s1 s2
  | .bevel => bevelF dest style pt s1 s2

/-- join_line over the NaN-aware carrier. -/
def joinLineF (sqrtF : F → F) (dest : FPathBuilder) (style : FStrokeStyle)
    (pt : FPoint) (s1 s2 : FVec) : FPathBuilder :=
  if isInteriorAngleF s1 s2 then
    joinLineInnerF sqrtF dest style pt (flipF s2) (flipF s1)
  else joinLineInnerF sqrtF dest style pt s1 s2

/-- Stroker loop state over the NaN-aware carrier. -/
structure FStrokerState where
  builder : FPathBuilder
  curPt : Option FPoint
  lastNormal : FVec
  startPoint : Option (FPoint × FVec)
deriving DecidableEq, Repr

/-- One iteration of the stroke_to_path loop, NaN-aware carrier. -/
def strokeStepF (sqrtF : F → F) (style : FStrokeStyle) (st : FStrokerState)
    (op : FPathOp) : Except String FStrokerState :=
  match op with
  | .moveTo pt =>
      match st.curPt, st.startPoint with
      | some cp, some (point, nrm) =>
          .ok ⟨capLineF sqrtF
                (capLineF sqrtF st.builder style cp st.lastNormal)
                style point (flipF nrm), some pt, st.lastNormal, none⟩
      | _, _ => .ok ⟨st.builder, some pt, st.lastNormal, none⟩
  | .lineTo pt =>
      match st.curPt with
      | none => .ok ⟨st.builder, some pt, st.lastNormal, none⟩
      | some cp =>
          match computeNormalF sqrtF cp pt with
          | none => .ok ⟨st.builder, some pt, st.lastNormal, st.startPoint⟩
          | some nrm =>
              let halfWidth := style.width / 2
              let b1 :=
                match st.startPoint with
                | none => st.builder
                | some _ =>
                    joinLineF sqrtF st.builder style cp st.lastNormal nrm
              let sp :=
                match st.startPoint with
                | none => some (cp, nrm)
                | some sp0 => some sp0
              let b2 := b1.quad (cp.x + nrm.x * halfWidth)
                (cp.y + nrm.y * halfWidth)
                (pt.x + nrm.x * halfWidth) (pt.y + nrm.y * halfWidth)
                (pt.x + -nrm.x * halfWidth) (pt.y + -nrm.y * halfWidth)
                (cp.x - nrm.x * halfWidth) (cp.y - nrm.y * halfWidth)
              .ok ⟨b2, some pt, nrm, sp⟩
  | .close =>
      match st.curPt, st.startPoint with
      | some cp, some (endPoint, startNormal) =>
          let b :=
            match computeNormalF sqrtF cp endPoint with
            | some nrm =>
                let halfWidth := style.width / 2
                let b1 := joinLineF sqrtF st.builder style cp st.lastNormal nrm
                let b2 := b1.quad (cp.x + nrm.x * halfWidth)
                  (cp.y + nrm.y * halfWidth)
                  (endPoint.x + nrm.x * halfWidth)
                  (endPoint.y + nrm.y * halfWidth)
                  (endPoint.x + -nrm.x * halfWidth)
                  (endPoint.y + -nrm.y * halfWidth)
                  (cp.x - nrm.x * halfWidth) (cp.y - nrm.y * halfWidth)
                joinLineF sqrtF b2 style endPoint nrm startNormal
            | none =>
                joinLineF sqrtF st.builder style endPoint st.lastNormal
                  startNormal
          .ok ⟨b, st.startPoint.map Prod.fst, st.lastNormal, none⟩
      | _, _ =>
          .ok ⟨st.builder, st.startPoint.map Prod.fst, st.lastNormal, none⟩
  | .quadTo _ _ => .error "Only flat paths handled"
  | .cubicTo _ _ _ => .error "Only flat paths handled"

/-- The stroke_to_path loop, NaN-aware carrier. -/
def runOpsF (sqrtF : F → F) (style : FStrokeStyle) :
    FStrokerState → List FPathOp → Except String FStrokerState
  | st, [] => .ok st
  | st, op :: rest =>
      match strokeStepF sqrtF style st op with
      | .error e => .error e
      | .ok st2 => runOpsF sqrtF style st2 rest

/-- stroke_to_path over the NaN-aware carrier; the width guard uses the
IEEE comparison, so it does not fire for a NaN width. -/
def strokeToPathF (sqrtF : F → F) (path : FPath) (style : FStrokeStyle) :
    Except String FPath :=
  let strokedPath := FPathBuilder.new
  if F.le style.width 0 then .ok strokedPath.finish
  else
    match runOpsF sqrtF style ⟨strokedPath, none, ⟨0, 0⟩, none⟩ path.ops with
    | .error e => .error e
    | .ok st =>
        match st.curPt, st.startPoint with
        | some cp, some (point, nrm) =>
            .ok ((capLineF sqrtF
              (capLineF sqrtF st.builder style cp st.lastNormal)
              style point (flipF nrm)).finish)
        | _, _ => .ok st.builder.finish

/-- The concrete square root used on the NaN-aware carrier: NaN on NaN and
on negative inputs, ratSqrt on nonnegative rationals. -/
def fsqrt : F → F
  | .nan => .nan
  | .num q => if q < 0 then .nan else .num (ratSqrt q)

end FModel

end AAStroke

namespace AAStroke

/-- C1: with a nonpositive stroke width, stroke_to_path short-circuits to the
empty NonZero path for every input path, before traversing any command. -/
theorem stroke_nonpositive_width_empty (sqrt : ℚ → ℚ) (path : Path)
    (style : StrokeStyle) (h : style.width ≤ 0) :
    strokeToPath sqrt path style = .ok ⟨[], .nonZero⟩ := by
  unfold strokeToPath
  rw [if_pos h]
  rfl

theorem stroke_nonpositive_width_empty_witness :
    negStyle.width ≤ 0 ∧
      strokeToPath ratSqrt curvyPath negStyle = .ok ⟨[], .nonZero⟩ :=
  ⟨by norm_num [negStyle],
    stroke_nonpositive_width_empty ratSqrt curvyPath negStyle
      (by norm_num [negStyle])⟩

/-- Every non-curved command makes the stroker step succeed. -/
theorem strokeStep_flat_ok (sqrt : ℚ → ℚ) (style : StrokeStyle)
    (st : StrokerState) (op : PathOp) (h : op.isCurved = false) :
    ∃ st2, strokeStep sqrt style st op = .ok st2 := by
  rcases st with ⟨bld, cp, ln, sp⟩
  cases op with
  | moveTo p =>
      cases cp <;> rcases sp with _ | ⟨q, n⟩ <;> exact ⟨_, rfl⟩
  | lineTo p =>
      cases cp with
      | none => exact ⟨_, rfl⟩
      | some cp =>
          cases hcn : computeNormal sqrt cp p with
          | none => exact ⟨_, by simp only [strokeStep, hcn]; rfl⟩
          | some nrm => exact ⟨_, by simp only [strokeStep, hcn]; rfl⟩
  | close =>
      cases cp <;> rcases sp with _ | ⟨q, n⟩ <;> exact ⟨_, rfl⟩
  | quadTo c p => simp [PathOp.isCurved] at h
  | cubicTo c1 c2 p => simp [PathOp.isCurved] at h

/-- The stroker loop stops with the flat-paths error as soon as the command
list contains a curved command. -/
theorem runOps_error_of_curved (sqrt : ℚ → ℚ) (style : StrokeStyle) :
    ∀ (ops : List PathOp) (st : StrokerState),
      (∃ op ∈ ops, op.isCurved = true) →
      runOps sqrt style st ops = .error "Only flat paths handled" := by
  intro ops
  induction ops with
  | nil => intro st h; simp at h
  | cons a rest ih =>
      intro st h
      cases ha : a.isCurved with
      | true =>
          cases a <;> simp [PathOp.isCurved] at ha <;> rfl
      | false =>
          obtain ⟨st2, hst⟩ := strokeStep_flat_ok sqrt style st a ha
          rcases h with ⟨op, hmem, hcur⟩
          rcases List.mem_cons.mp hmem with rfl | hmem2
          · rw [ha] at hcur; cases hcur
          · rw [runOps, hst]
            exact ih st2 ⟨op, hmem2, hcur⟩

/-- C2: a path containing a curved command makes stroke_to_path fail with
the flat-paths error whenever the width guard does not short-circuit. -/
theorem stroke_curved_errors (sqrt : ℚ → ℚ) (path : Path)
    (style : StrokeStyle) (hc : ∃ op ∈ path.ops, op.isCurved = true)
    (hw : 0 < style.width) :
    strokeToPath sqrt path style = .error "Only flat paths handled" := by
  unfold strokeToPath
  rw [if_neg (not_le.mpr hw),
    runOps_error_of_curved sqrt style path.ops _ hc]

theorem stroke_curved_errors_witness :
    (∃ op ∈ cubicPath.ops, op.isCurved = true) ∧
      0 < StrokeStyle.default.width ∧
      strokeToPath ratSqrt cubicPath StrokeStyle.default =
        .error "Only flat paths handled" :=
  ⟨⟨.cubicTo ⟨0, 1⟩ ⟨1, 1⟩ ⟨1, 0⟩, by simp [cubicPath], rfl⟩,
    by norm_num [StrokeStyle.default],
    stroke_curved_errors ratSqrt cubicPath StrokeStyle.default
      ⟨.cubicTo ⟨0, 1⟩ ⟨1, 1⟩ ⟨1, 0⟩, by simp [cubicPath], rfl⟩
      (by norm_num [StrokeStyle.default])⟩

/-- C4 counterexample: a Close directly after a MoveTo (no recorded
non-degenerate segment) resets cur_pt to None, not to the subpath start. -/
theorem close_after_moveTo_loses_current_point :
    runOps ratSqrt StrokeStyle.default ⟨PathBuilder.new, none, ⟨0, 0⟩, none⟩
        [.moveTo ⟨5, 7⟩, .close] =
      .ok ⟨PathBuilder.new, none, ⟨0, 0⟩, none⟩ ∧
      (none : Option Point) ≠ some ⟨5, 7⟩ :=
  ⟨rfl, fun h => Option.noConfusion h⟩

/-- C4 amended: after a Close, start_point is always reset to None, the last
normal is untouched, and cur_pt becomes the recorded subpath start point when
one was recorded and None otherwise. -/
theorem strokeStep_close_resets (sqrt : ℚ → ℚ) (style : StrokeStyle)
    (st : StrokerState) :
    ∃ b, strokeStep sqrt style st .close =
      .ok ⟨b, st.startPoint.map Prod.fst, st.lastNormal, none⟩ := by
  rcases st with ⟨bld, cp, ln, sp⟩
  cases cp <;> rcases sp with _ | ⟨q, n⟩ <;> exact ⟨_, rfl⟩

/-- C5: a LineTo to the exact current point is skipped entirely: no failure,
no emitted geometry, no normal update, same state. -/
theorem strokeStep_lineTo_degenerate (sqrt : ℚ → ℚ) (style : StrokeStyle)
    (st : StrokerState) (p : Point) (h0 : sqrt 0 = 0)
    (hcp : st.curPt = some p) :
    strokeStep sqrt style st (.lineTo p) = .ok st := by
  have hn : computeNormal sqrt p p = none := by
    unfold computeNormal
    simp [sub_self, h0]
  rcases st with ⟨bld, cp, ln, sp⟩
  simp only [StrokerState.curPt] at hcp
  subst hcp
  simp only [strokeStep, hn]

theorem strokeStep_lineTo_degenerate_witness :
    ratSqrt 0 = 0 ∧
      (⟨PathBuilder.new, some ⟨3, 4⟩, ⟨1, 0⟩, none⟩ : StrokerState).curPt =
        some ⟨3, 4⟩ ∧
      strokeStep ratSqrt StrokeStyle.default
          ⟨PathBuilder.new, some ⟨3, 4⟩, ⟨1, 0⟩, none⟩ (.lineTo ⟨3, 4⟩) =
        .ok ⟨PathBuilder.new, some ⟨3, 4⟩, ⟨1, 0⟩, none⟩ :=
  ⟨by norm_num [ratSqrt], rfl,
    strokeStep_lineTo_degenerate ratSqrt StrokeStyle.default
      ⟨PathBuilder.new, some ⟨3, 4⟩, ⟨1, 0⟩, none⟩ ⟨3, 4⟩
      (by norm_num [ratSqrt]) rfl⟩

end AAStroke

namespace AAStroke

/-- C3: in the body of join_line after the normal adjustment, with the Miter
style, the miter branch (the intersection quadrilateral) is chosen exactly
when miterLimit squared times (1 - in_dot_out) is at least 2, where
in_dot_out is the negated dot product of the two normals; otherwise the
bevel triangle is emitted. -/
theorem joinLineInner_miter_branch (sqrt : ℚ → ℚ) (dest : PathBuilder)
    (style : StrokeStyle) (pt : Point) (s1 s2 : Vector)
    (hj : style.join = LineJoin.miter) :
    (2 ≤ style.miterLimit ^ 2 * (1 - -dot s1 s2) →
      joinLineInner sqrt dest style pt s1 s2 =
        match lineIntersection (paddv pt (vscale s1 (style.width / 2))) s1
            (paddv pt (vscale s2 (style.width / 2))) s2 with
        | some inter =>
            dest.quad (pt.x + s1.x * (style.width / 2))
              (pt.y + s1.y * (style.width / 2)) inter.x inter.y
              (pt.x + s2.x * (style.width / 2))
              (pt.y + s2.y * (style.width / 2)) pt.x pt.y
        | none => dest) ∧
    (style.miterLimit ^ 2 * (1 - -dot s1 s2) < 2 →
      joinLineInner sqrt dest style pt s1 s2 =
        dest.tri (pt.x + s1.x * (style.width / 2))
          (pt.y + s1.y * (style.width / 2))
          (pt.x + s2.x * (style.width / 2))
          (pt.y + s2.y * (style.width / 2)) pt.x pt.y) := by
  have hform : style.miterLimit * style.miterLimit *
      (1 - (-s1.x * s2.x + -s1.y * s2.y)) =
      style.miterLimit ^ 2 * (1 - -dot s1 s2) := by
    unfold dot; ring
  constructor
  · intro h
    unfold joinLineInner
    rw [hj]
    simp only [hform]
    rw [if_pos h]
  · intro h
    unfold joinLineInner
    rw [hj]
    simp only [hform]
    rw [if_neg (not_le.mpr h)]
    rfl

theorem joinLineInner_miter_branch_witness :
    StrokeStyle.default.join = LineJoin.miter ∧
      joinLineInner ratSqrt PathBuilder.new StrokeStyle.default ⟨0, 0⟩
          ⟨0, 1⟩ ⟨1, 0⟩ =
        PathBuilder.new.quad 0 (1 / 2) (1 / 2) (1 / 2) (1 / 2) 0 0 0 := by
  refine ⟨rfl, ?_⟩
  have h := (joinLineInner_miter_branch ratSqrt PathBuilder.new
    StrokeStyle.default ⟨0, 0⟩ ⟨0, 1⟩ ⟨1, 0⟩ rfl).1
    (by norm_num [StrokeStyle.default, dot])
  rw [h]
  norm_num [lineIntersection, paddv, vscale, unperp, swap, psub, dot,
    StrokeStyle.default, PathBuilder.quad, PathBuilder.moveTo,
    PathBuilder.lineTo, PathBuilder.close, PathBuilder.new]

/-- C6: stroking a single open MoveTo-LineTo segment with the butt cap
yields exactly the one offset quad through the four corners, with no join
or cap geometry. -/
theorem stroke_single_open_segment (sqrt : ℚ → ℚ) (style : StrokeStyle)
    (w : Winding) (a p : Point) (n : Vector)
    (hcap : style.cap = LineCap.butt) (hw : 0 < style.width)
    (hn : computeNormal sqrt a p = some n) :
    strokeToPath sqrt ⟨[.moveTo a, .lineTo p], w⟩ style =
      .ok ⟨[.moveTo (paddv a (vscale n (style.width / 2))),
            .lineTo (paddv p (vscale n (style.width / 2))),
            .lineTo (psubv p (vscale n (style.width / 2))),
            .lineTo (psubv a (vscale n (style.width / 2))),
            .close], .nonZero⟩ := by
  have capB : ∀ (d : PathBuilder) (q : Point) (m : Vector),
      capLine sqrt d style q m = d := by
    intro d q m
    unfold capLine
    rw [hcap]
  unfold strokeToPath
  rw [if_neg (not_le.mpr hw)]
  have h1 : runOps sqrt style ⟨PathBuilder.new, none, ⟨0, 0⟩, none⟩
      [.moveTo a, .lineTo p] =
      .ok ⟨PathBuilder.new.quad (a.x + n.x * (style.width / 2))
          (a.y + n.y * (style.width / 2))
          (p.x + n.x * (style.width / 2)) (p.y + n.y * (style.width / 2))
          (p.x + -n.x * (style.width / 2)) (p.y + -n.y * (style.width / 2))
          (a.x - n.x * (style.width / 2)) (a.y - n.y * (style.width / 2)),
        some p, n, some (a, n)⟩ := by
    simp only [runOps, strokeStep, hn]
  rw [h1]
  simp only [capB]
  simp only [PathBuilder.quad, PathBuilder.moveTo, PathBuilder.lineTo,
    PathBuilder.close, PathBuilder.finish, PathBuilder.new, paddv, psubv,
    vscale]
  simp only [List.cons_append, List.nil_append]
  simp only [neg_mul, sub_eq_add_neg]

theorem stroke_single_open_segment_witness :
    StrokeStyle.default.cap = LineCap.butt ∧ 0 < StrokeStyle.default.width ∧
      computeNormal ratSqrt ⟨0, 0⟩ ⟨0, 1⟩ = some ⟨-1, 0⟩ ∧
      strokeToPath ratSqrt ⟨[.moveTo ⟨0, 0⟩, .lineTo ⟨0, 1⟩], .evenOdd⟩
          StrokeStyle.default =
        .ok ⟨[.moveTo ⟨-1 / 2, 0⟩, .lineTo ⟨-1 / 2, 1⟩, .lineTo ⟨1 / 2, 1⟩,
              .lineTo ⟨1 / 2, 0⟩, .close], .nonZero⟩ := by
  have hn : computeNormal ratSqrt ⟨0, 0⟩ ⟨0, 1⟩ = some ⟨-1, 0⟩ := by
    norm_num [computeNormal, ratSqrt, natSqrt, sqrtGo]
  refine ⟨rfl, by norm_num [StrokeStyle.default], hn, ?_⟩
  have h := stroke_single_open_segment ratSqrt StrokeStyle.default .evenOdd
    ⟨0, 0⟩ ⟨0, 1⟩ ⟨-1, 0⟩ rfl (by norm_num [StrokeStyle.default]) hn
  rw [h]
  norm_num [paddv, psubv, vscale, StrokeStyle.default]

/-- C7 counterexample: for the unit vectors (7/25, 24/25) and (7/25, -24/25)
spanning an angle below pi, the first point emitted by arc around the origin
with radius 1 is the first cubic control point (53/75, 188/225), which
differs from center + radius times the start vector. -/
theorem arc_first_emitted_point_not_start :
    firstEmittedPoint (arc ratSqrt PathBuilder.new 0 0 1 ⟨7 / 25, 24 / 25⟩
        ⟨7 / 25, -24 / 25⟩).path.ops = some ⟨53 / 75, 188 / 225⟩ ∧
      (⟨53 / 75, 188 / 225⟩ : Point) ≠ ⟨0 + 1 * (7 / 25), 0 + 1 * (24 / 25)⟩ ∧
      (7 / 25 : ℚ) * (7 / 25) + 24 / 25 * (24 / 25) = 1 ∧
      (7 / 25 : ℚ) * (7 / 25) + -24 / 25 * (-24 / 25) = 1 := by
  have h2304 : natSqrt 2304 = 48 := by decide
  have h625 : natSqrt 625 = 25 := by decide
  have h64 : natSqrt 64 = 8 := by decide
  have h25 : natSqrt 25 = 5 := by decide
  have hrs1 : ratSqrt (2304 / 625) = 48 / 25 := by
    rw [ratSqrt]
    norm_num [h2304, h625]
  have hrs2 : ratSqrt (64 / 25) = 8 / 5 := by
    rw [ratSqrt]
    norm_num [h64, h25]
  have hb : bisect ratSqrt ⟨7 / 25, 24 / 25⟩ ⟨7 / 25, -24 / 25⟩ = ⟨1, 0⟩ := by
    norm_num [bisect, dot, flip, perp, vadd, vdiv, hrs1]
  refine ⟨?_, by norm_num [Point.mk.injEq], by norm_num, by norm_num⟩
  unfold arc
  rw [hb]
  unfold arcSegment PathBuilder.cubicTo PathBuilder.new
  dsimp only
  simp only [List.cons_append, List.nil_append, firstEmittedPoint]
  norm_num [vadd, vdiv, perp, dot, hrs2]

/-- C7 amended: arc appends exactly two cubic segments, split at the
bisector: the first ends at center + r times the bisector and the second at
center + r times the end vector; the winding is untouched; and arc_wedge
issues a MoveTo to center + r times the start vector immediately before
arc, so the curve sequence starts there. -/
theorem arc_two_cubics_endpoints (sqrt : ℚ → ℚ) (d : PathBuilder)
    (xc yc r : ℚ) (va vb : Vector) :
    (∃ c1 c2 c3 c4,
      (arc sqrt d xc yc r va vb).path.ops = d.path.ops ++
        [.cubicTo c1 c2 ⟨xc + r * (bisect sqrt va vb).x,
            yc + r * (bisect sqrt va vb).y⟩,
          .cubicTo c3 c4 ⟨xc + r * vb.x, yc + r * vb.y⟩]) ∧
    (arc sqrt d xc yc r va vb).path.winding = d.path.winding ∧
    PathBuilder.arcWedge d sqrt ⟨xc, yc⟩ r va vb =
      ((arc sqrt (d.moveTo (xc + va.x * r) (yc + va.y * r)) xc yc r
        va vb).lineTo xc yc).close := by
  refine ⟨?_, rfl, rfl⟩
  unfold arc arcSegment PathBuilder.cubicTo
  dsimp only
  rw [List.append_assoc]
  exact ⟨_, _, _, _, rfl⟩

end AAStroke

namespace AAStroke

/-- cap_line reads only width and cap from the style: the dash fields can be
replaced by the canonical empty configuration. -/
theorem capLine_drop_dash (sqrt : ℚ → ℚ) (d : PathBuilder) (pt : Point)
    (nrm : Vector) (w : ℚ) (c : LineCap) (j : LineJoin) (m : ℚ)
    (da : List ℚ) (o : ℚ) :
    capLine sqrt d ⟨w, c, j, m, da, o⟩ pt nrm =
      capLine sqrt d ⟨w, c, j, m, [], 0⟩ pt nrm := by
  cases c <;> rfl

/-- bevel reads only the width from the style. -/
theorem bevel_drop_dash (d : PathBuilder) (pt : Point) (s1 s2 : Vector)
    (w : ℚ) (c : LineCap) (j : LineJoin) (m : ℚ) (da : List ℚ) (o : ℚ) :
    bevel d ⟨w, c, j, m, da, o⟩ pt s1 s2 =
      bevel d ⟨w, c, j, m, [], 0⟩ pt s1 s2 := rfl

/-- The join body reads only width, join and miter limit from the style. -/
theorem joinLineInner_drop_dash (sqrt : ℚ → ℚ) (d : PathBuilder) (pt : Point)
    (s1 s2 : Vector) (w : ℚ) (c : LineCap) (j : LineJoin) (m : ℚ)
    (da : List ℚ) (o : ℚ) :
    joinLineInner sqrt d ⟨w, c, j, m, da, o⟩ pt s1 s2 =
      joinLineInner sqrt d ⟨w, c, j, m, [], 0⟩ pt s1 s2 := by
  cases j <;> rfl

/-- join_line never reads the dash fields. -/
theorem joinLine_drop_dash (sqrt : ℚ → ℚ) (d : PathBuilder) (pt : Point)
    (s1 s2 : Vector) (w : ℚ) (c : LineCap) (j : LineJoin) (m : ℚ)
    (da : List ℚ) (o : ℚ) :
    joinLine sqrt d ⟨w, c, j, m, da, o⟩ pt s1 s2 =
      joinLine sqrt d ⟨w, c, j, m, [], 0⟩ pt s1 s2 := by
  unfold joinLine
  split
  · exact joinLineInner_drop_dash sqrt d pt (flip s2) (flip s1) w c j m da o
  · exact joinLineInner_drop_dash sqrt d pt s1 s2 w c j m da o

/-- One stroker step never reads the dash fields. -/
theorem strokeStep_drop_dash (sqrt : ℚ → ℚ) (st : StrokerState) (op : PathOp)
    (w : ℚ) (c : LineCap) (j : LineJoin) (m : ℚ) (da : List ℚ) (o : ℚ) :
    strokeStep sqrt ⟨w, c, j, m, da, o⟩ st op =
      strokeStep sqrt ⟨w, c, j, m, [], 0⟩ st op := by
  rcases st with ⟨bld, cp, ln, sp⟩
  cases op with
  | moveTo pt =>
      cases cp <;> rcases sp with _ | ⟨q, n⟩ <;>
        simp only [strokeStep, capLine_drop_dash]
  | lineTo pt =>
      cases cp with
      | none => rfl
      | some cp =>
          cases hn : computeNormal sqrt cp pt with
          | none => simp only [strokeStep, hn]
          | some nrm =>
              rcases sp with _ | ⟨q, n⟩ <;>
                simp only [strokeStep, hn, joinLine_drop_dash]
  | close =>
      cases cp with
      | none => rcases sp with _ | ⟨q, n⟩ <;> rfl
      | some cp =>
          rcases sp with _ | ⟨q, n⟩
          · rfl
          · cases hn : computeNormal sqrt cp q with
            | none => simp only [strokeStep, hn, joinLine_drop_dash]
            | some nrm => simp only [strokeStep, hn, joinLine_drop_dash]
  | quadTo c1 p => rfl
  | cubicTo c1 c2 p => rfl

/-- The stroker loop never reads the dash fields. -/
theorem runOps_drop_dash (sqrt : ℚ → ℚ) (w : ℚ) (c : LineCap) (j : LineJoin)
    (m : ℚ) (da : List ℚ) (o : ℚ) :
    ∀ (ops : List PathOp) (st : StrokerState),
      runOps sqrt ⟨w, c, j, m, da, o⟩ st ops =
        runOps sqrt ⟨w, c, j, m, [], 0⟩ st ops := by
  intro ops
  induction ops with
  | nil => intro st; rfl
  | cons a rest ih =>
      intro st
      simp only [runOps]
      rw [strokeStep_drop_dash]
      cases strokeStep sqrt ⟨w, c, j, m, [], 0⟩ st a with
      | error e => rfl
      | ok st2 => exact ih st2

/-- stroke_to_path never reads the dash fields. -/
theorem strokeToPath_drop_dash (sqrt : ℚ → ℚ) (p : Path) (w : ℚ)
    (c : LineCap) (j : LineJoin) (m : ℚ) (da : List ℚ) (o : ℚ) :
    strokeToPath sqrt p ⟨w, c, j, m, da, o⟩ =
      strokeToPath sqrt p ⟨w, c, j, m, [], 0⟩ := by
  unfold strokeToPath
  dsimp only
  rw [runOps_drop_dash]
  cases runOps sqrt ⟨w, c, j, m, [], 0⟩ ⟨PathBuilder.new, none, ⟨0, 0⟩, none⟩
      p.ops with
  | error e => rfl
  | ok st =>
      rcases st with ⟨bld, cp, ln, sp⟩
      cases cp <;> rcases sp with _ | ⟨q, n⟩ <;>
        simp only [capLine_drop_dash]

/-- C8: two styles agreeing on width, cap, join and miter limit but with
arbitrary dash configurations stroke every path identically: the dash
fields are never consumed. -/
theorem stroke_dash_independent (sqrt : ℚ → ℚ) (p : Path) (w : ℚ)
    (c : LineCap) (j : LineJoin) (m : ℚ) (da1 da2 : List ℚ) (o1 o2 : ℚ) :
    strokeToPath sqrt p ⟨w, c, j, m, da1, o1⟩ =
      strokeToPath sqrt p ⟨w, c, j, m, da2, o2⟩ :=
  (strokeToPath_drop_dash sqrt p w c j m da1 o1).trans
    (strokeToPath_drop_dash sqrt p w c j m da2 o2).symm

end AAStroke

namespace AAStroke

/-- Builder primitives never change the winding of the path under
construction. -/
@[simp] theorem winding_moveTo (b : PathBuilder) (x y : ℚ) :
    (b.moveTo x y).path.winding = b.path.winding := rfl

@[simp] theorem winding_lineTo (b : PathBuilder) (x y : ℚ) :
    (b.lineTo x y).path.winding = b.path.winding := rfl

@[simp] theorem winding_quadTo (b : PathBuilder) (cx cy x y : ℚ) :
    (b.quadTo cx cy x y).path.winding = b.path.winding := rfl

@[simp] theorem winding_cubicTo (b : PathBuilder) (cx1 cy1 cx2 cy2 x y : ℚ) :
    (b.cubicTo cx1 cy1 cx2 cy2 x y).path.winding = b.path.winding := rfl

@[simp] theorem winding_closeOp (b : PathBuilder) :
    b.close.path.winding = b.path.winding := rfl

@[simp] theorem winding_quad (b : PathBuilder) (x1 y1 x2 y2 x3 y3 x4 y4 : ℚ) :
    (b.quad x1 y1 x2 y2 x3 y3 x4 y4).path.winding = b.path.winding := rfl

@[simp] theorem winding_tri (b : PathBuilder) (x1 y1 x2 y2 x3 y3 : ℚ) :
    (b.tri x1 y1 x2 y2 x3 y3).path.winding = b.path.winding := rfl

@[simp] theorem winding_arcSegment (sqrt : ℚ → ℚ) (b : PathBuilder)
    (xc yc r : ℚ) (va vb : Vector) :
    (arcSegment sqrt b xc yc r va vb).path.winding = b.path.winding := rfl

@[simp] theorem winding_arc (sqrt : ℚ → ℚ) (b : PathBuilder) (xc yc r : ℚ)
    (va vb : Vector) :
    (arc sqrt b xc yc r va vb).path.winding = b.path.winding := rfl

@[simp] theorem winding_arcWedge (b : PathBuilder) (sqrt : ℚ → ℚ) (c : Point)
    (r : ℚ) (va vb : Vector) :
    (b.arcWedge sqrt c r va vb).path.winding = b.path.winding := rfl

@[simp] theorem winding_capLine (sqrt : ℚ → ℚ) (d : PathBuilder)
    (style : StrokeStyle) (pt : Point) (nrm : Vector) :
    (capLine sqrt d style pt nrm).path.winding = d.path.winding := by
  rcases style with ⟨w, c, j, m, da, o⟩
  cases c <;> rfl

@[simp] theorem winding_bevel (d : PathBuilder) (style : StrokeStyle)
    (pt : Point) (s1 s2 : Vector) :
    (bevel d style pt s1 s2).path.winding = d.path.winding := rfl

@[simp] theorem winding_joinLineInner (sqrt : ℚ → ℚ) (d : PathBuilder)
    (style : StrokeStyle) (pt : Point) (s1 s2 : Vector) :
    (joinLineInner sqrt d style pt s1 s2).path.winding = d.path.winding := by
  rcases style with ⟨w, c, j, m, da, o⟩
  cases j with
  | round => rfl
  | miter =>
      unfold joinLineInner
      dsimp only
      split
      · split <;> rfl
      · rfl
  | bevel => rfl

@[simp] theorem winding_joinLine (sqrt : ℚ → ℚ) (d : PathBuilder)
    (style : StrokeStyle) (pt : Point) (s1 s2 : Vector) :
    (joinLine sqrt d style pt s1 s2).path.winding = d.path.winding := by
  unfold joinLine
  split <;> apply winding_joinLineInner

/-- A successful stroker step preserves the winding of the output under
construction. -/
theorem winding_strokeStep (sqrt : ℚ → ℚ) (style : StrokeStyle)
    (st st2 : StrokerState) (op : PathOp)
    (h : strokeStep sqrt style st op = .ok st2) :
    st2.builder.path.winding = st.builder.path.winding := by
  rcases st with ⟨bld, cp, ln, sp⟩
  cases op with
  | moveTo pt =>
      cases cp <;> rcases sp with _ | ⟨q, n⟩ <;>
        (injection h with h2; subst h2; simp)
  | lineTo pt =>
      cases cp with
      | none => injection h with h2; subst h2; rfl
      | some cp =>
          cases hn : computeNormal sqrt cp pt with
          | none =>
              simp only [strokeStep, hn] at h
              injection h with h2
              subst h2
              rfl
          | some nrm =>
              rcases sp with _ | ⟨q, n⟩ <;>
                (simp only [strokeStep, hn] at h; injection h with h2;
                  subst h2; simp)
  | close =>
      cases cp with
      | none =>
          rcases sp with _ | ⟨q, n⟩ <;> (injection h with h2; subst h2; rfl)
      | some cp =>
          rcases sp with _ | ⟨q, n⟩
          · injection h with h2; subst h2; rfl
          · cases hn : computeNormal sqrt cp q with
            | none =>
                simp only [strokeStep, hn] at h
                injection h with h2
                subst h2
                simp
            | some nrm =>
                simp only [strokeStep, hn] at h
                injection h with h2
                subst h2
                simp
  | quadTo c1 p => exact absurd h (by simp [strokeStep])
  | cubicTo c1 c2 p => exact absurd h (by simp [strokeStep])

/-- The whole stroker loop preserves the winding of the output under
construction. -/
theorem winding_runOps (sqrt : ℚ → ℚ) (style : StrokeStyle) :
    ∀ (ops : List PathOp) (st st2 : StrokerState),
      runOps sqrt style st ops = .ok st2 →
      st2.builder.path.winding = st.builder.path.winding := by
  intro ops
  induction ops with
  | nil =>
      intro st st2 h
      injection h with h2
      subst h2
      rfl
  | cons a rest ih =>
      intro st st2 h
      simp only [runOps] at h
      cases hstep : strokeStep sqrt style st a with
      | error e => rw [hstep] at h; cases h
      | ok st1 =>
          rw [hstep] at h
          exact (ih st1 st2 h).trans (winding_strokeStep sqrt style st st1 a hstep)

/-- C9: every path stroke_to_path returns carries the NonZero winding rule,
independently of the winding of the input path. -/
theorem stroke_winding_nonZero (sqrt : ℚ → ℚ) (path : Path)
    (style : StrokeStyle) (q : Path)
    (h : strokeToPath sqrt path style = .ok q) :
    q.winding = Winding.nonZero := by
  unfold strokeToPath at h
  by_cases hw : style.width ≤ 0
  · rw [if_pos hw] at h
    injection h with h2
    subst h2
    rfl
  · rw [if_neg hw] at h
    cases hrun : runOps sqrt style ⟨PathBuilder.new, none, ⟨0, 0⟩, none⟩
        path.ops with
    | error e => rw [hrun] at h; cases h
    | ok st =>
        rw [hrun] at h
        have hwind : st.builder.path.winding = Winding.nonZero :=
          winding_runOps sqrt style path.ops _ st hrun
        rcases st with ⟨bld, cp, ln, sp⟩
        simp only [StrokerState.builder] at hwind
        cases cp with
        | none =>
            rcases sp with _ | ⟨pt0, n0⟩ <;>
              (dsimp only at h; injection h with h2; subst h2; exact hwind)
        | some cp =>
            rcases sp with _ | ⟨pt0, n0⟩
            · dsimp only at h
              injection h with h2
              subst h2
              exact hwind
            · dsimp only at h
              injection h with h2
              subst h2
              simp only [PathBuilder.finish, winding_capLine]
              exact hwind

theorem stroke_winding_nonZero_witness :
    strokeToPath ratSqrt ⟨[.moveTo ⟨0, 0⟩, .lineTo ⟨0, 1⟩], .evenOdd⟩
        StrokeStyle.default =
      .ok ⟨[.moveTo ⟨-1 / 2, 0⟩, .lineTo ⟨-1 / 2, 1⟩, .lineTo ⟨1 / 2, 1⟩,
            .lineTo ⟨1 / 2, 0⟩, .close], .nonZero⟩ ∧
      (⟨[.moveTo ⟨-1 / 2, 0⟩, .lineTo ⟨-1 / 2, 1⟩, .lineTo ⟨1 / 2, 1⟩,
            .lineTo ⟨1 / 2, 0⟩, .close], .nonZero⟩ : Path).winding =
        Winding.nonZero := by
  have hres : strokeToPath ratSqrt
      ⟨[.moveTo ⟨0, 0⟩, .lineTo ⟨0, 1⟩], .evenOdd⟩ StrokeStyle.default =
      .ok ⟨[.moveTo ⟨-1 / 2, 0⟩, .lineTo ⟨-1 / 2, 1⟩, .lineTo ⟨1 / 2, 1⟩,
            .lineTo ⟨1 / 2, 0⟩, .close], .nonZero⟩ := by
    norm_num [strokeToPath, runOps, strokeStep, computeNormal, ratSqrt,
      natSqrt, sqrtGo, StrokeStyle.default, PathBuilder.new,
      PathBuilder.quad, PathBuilder.moveTo, PathBuilder.lineTo,
      PathBuilder.close, PathBuilder.finish, capLine]
  exact ⟨hres, stroke_winding_nonZero ratSqrt _ StrokeStyle.default _ hres⟩

end AAStroke

namespace AAStroke

namespace FModel

@[simp] theorem add_def (a b : F) : a + b = F.add a b := rfl

@[simp] theorem mul_def (a b : F) : a * b = F.mul a b := rfl

@[simp] theorem sub_def (a b : F) : a - b = F.sub a b := rfl

@[simp] theorem div_def (a b : F) : a / b = F.div a b := rfl

@[simp] theorem neg_def (a : F) : -a = F.neg a := rfl

@[simp] theorem ofNat_def (n : Nat) :
    (OfNat.ofNat n : F) = F.num (OfNat.ofNat n) := rfl

/-- C10: the nonpositive-width short circuit does not cover a NaN width.
With width NaN and a two-point segment, stroke_to_path proceeds past the
guard and emits the offset quad, every coordinate of which is NaN. -/
theorem stroke_nan_width_emits_nan :
    strokeToPathF fsqrt
        ⟨[.moveTo ⟨.num 0, .num 0⟩, .lineTo ⟨.num 0, .num 100⟩], .nonZero⟩
        ⟨.nan, .butt, .miter, .num 10, [], .num 0⟩ =
      .ok ⟨[.moveTo ⟨.nan, .nan⟩, .lineTo ⟨.nan, .nan⟩,
            .lineTo ⟨.nan, .nan⟩, .lineTo ⟨.nan, .nan⟩, .close],
          .nonZero⟩ ∧
      ([FPathOp.moveTo ⟨.nan, .nan⟩, .lineTo ⟨.nan, .nan⟩,
        .lineTo ⟨.nan, .nan⟩, .lineTo ⟨.nan, .nan⟩, .close] : List FPathOp) ≠
        [] := by
  have h10000 : natSqrt 10000 = 100 := by decide
  have hone : natSqrt 1 = 1 := by decide
  have hrs : ratSqrt 10000 = 100 := by
    rw [ratSqrt]
    norm_num [h10000, hone]
  have hfs : fsqrt (F.num 10000) = F.num 100 := by
    norm_num [fsqrt, hrs]
  have hcn : computeNormalF fsqrt ⟨.num 0, .num 0⟩ ⟨.num 0, .num 100⟩ =
      some ⟨.num (-1), .num 0⟩ := by
    norm_num [computeNormalF, F.sub, F.mul, F.add, F.beq, F.div, F.neg, hfs]
  constructor
  · norm_num [strokeToPathF, runOpsF, strokeStepF, hcn, capLineF,
      FPathBuilder.new, FPathBuilder.finish, FPathBuilder.quad,
      FPathBuilder.moveTo, FPathBuilder.lineTo, FPathBuilder.close,
      F.le, F.beq, F.add, F.mul, F.sub, F.div, F.neg]
  · simp

end FModel

end AAStroke
